import Mathlib

/-
Shallow embedding of src/3rdparty/sdl3_backport/SDL_iostream.c.

Modelling conventions:
* A byte region is a `List Nat`; pointers into it are offsets from `base`,
  with `base = 0`.  The C pointer triple (base, here, stop) becomes
  (buf, here, stop) with `base` identified with index 0 of `buf`.
* `size_t` becomes `Nat`, `Sint64` becomes `Int`.  A pointer difference such
  as `stop - here` is truncated `Nat` subtraction, which agrees with the C
  pointer difference under the memory-backend invariant `here ≤ stop`.
* Allocation (SDL_calloc / SDL_malloc / SDL_realloc) is modelled as
  succeeding, except in `dynamic_mem_realloc`, which takes an explicit
  `reallocOk` parameter because the claims quantify over allocation failure.
  `SDL_realloc` preserves the common prefix of old and new region; the fresh
  tail, unspecified in C, is modelled as zero bytes (it is never read before
  being written in any code path the claims exercise).
* The global SDL error message is modelled as a `Bool` flag ("a non-empty
  error message is set").  `SDL_ReadIO`/`SDL_WriteIO` call SDL_ClearError on
  entry, so only the flag set by the backend during the call is observable;
  backend steps therefore simply report whether they set an error.
* C names ending in `IO` are spelled `...Io` here (e.g. `SDL_ReadIo` models
  `SDL_ReadIO`).
-/

/- SDL_IOStatus from the SDL3 interface used by SDL_iostream.c. -/
inductive SDL_IOStatus where
  | READY
  | ERROR
  | EOF
  | NOT_READY
  | READONLY
  | WRITEONLY
deriving DecidableEq, Inhabited

/- SDL_IOWhence: SDL_IO_SEEK_SET / SDL_IO_SEEK_CUR / SDL_IO_SEEK_END. -/
inductive SDL_IOWhence where
  | SEEK_SET
  | SEEK_CUR
  | SEEK_END
deriving DecidableEq, Inhabited

/- The SDL_PropertiesID struct defined at the top of SDL_iostream.c.  Only
the fields used by the modelled code paths are kept: `memoryPtr` and
`memorySize` (set by the memory constructors and by dynamic_mem_realloc)
and `chunkSize` (growth granularity).  `dynamicMemPtr`, `stdioFilePtr` and
`fdNumber` belong to the unmodelled stdio/fd constructors.  A null pointer
is `none`. -/
structure SDL_Props where
  memoryPtr : Option (List Nat)
  memorySize : Nat
  chunkSize : Nat
deriving DecidableEq, Inhabited

/- Zero-initialized properties, as produced by SDL_calloc in SDL_OpenIO. -/
def defaultProps : SDL_Props :=
  { memoryPtr := none, memorySize := 0, chunkSize := 0 }

/- IOStreamMemData: the (base, here, stop) pointer triple over a byte
region.  `base = 0`, so `here` and `stop` are offsets and the region
contents live in `buf`. -/
structure IOStreamMemData where
  buf : List Nat
  here : Nat
  stop : Nat
deriving DecidableEq, Inhabited

/- mem_size: `stop - base`; with base = 0 this is `stop`. -/
def mem_size (m : IOStreamMemData) : Int :=
  (m.stop : Int)

/- mem_seek: computes the candidate position from whence and offset, clamps
it into [base, stop], stores it in `here` and returns it relative to base.
The C `default:` branch (unknown whence value) is unreachable for the three
enum constructors. -/
def mem_seek (m : IOStreamMemData) (offset : Int) (whence : SDL_IOWhence) :
    Int × IOStreamMemData :=
  let newpos0 : Int :=
    match whence with
    | .SEEK_SET => 0 + offset
    | .SEEK_CUR => (m.here : Int) + offset
    | .SEEK_END => (m.stop : Int) + offset
  let newpos1 : Int := if newpos0 < 0 then 0 else newpos0
  let newpos2 : Int := if newpos1 > (m.stop : Int) then (m.stop : Int) else newpos1
  (newpos2, { m with here := newpos2.toNat })

/- mem_io in the read direction (mem_read): clamps the requested size to the
bytes available in [here, stop), copies them out and advances `here`.
Returns (count, bytes copied, new state). -/
def mem_io_read (m : IOStreamMemData) (size : Nat) : Nat × List Nat × IOStreamMemData :=
  let avail := m.stop - m.here
  let k := if size > avail then avail else size
  (k, (m.buf.drop m.here).take k, { m with here := m.here + k })

/- Helper modelling `memcpy(l + i, v, v.length)`: overlays `v` onto `l`
starting at offset `i`. -/
def overlay (l : List Nat) (i : Nat) (v : List Nat) : List Nat :=
  l.take i ++ v ++ l.drop (i + v.length)

/- mem_io in the write direction (mem_write): clamps the requested size to
the bytes available in [here, stop), copies them in and advances `here`. -/
def mem_io_write (m : IOStreamMemData) (src : List Nat) (size : Nat) :
    Nat × IOStreamMemData :=
  let avail := m.stop - m.here
  let k := if size > avail then avail else size
  (k, { m with buf := overlay m.buf m.here (src.take k), here := m.here + k })

/- IOStreamDynamicMemData: the fixed-memory triple plus the allocated-end
offset (`end` in C; renamed because `end` is a Lean keyword).  The C struct
also holds a back-reference to the owning stream, used only to reach the
stream's properties; the model passes the properties explicitly instead. -/
structure IOStreamDynamicMemData where
  data : IOStreamMemData
  allocEnd : Nat
deriving DecidableEq, Inhabited

/- dynamic_mem_size: delegates to mem_size. -/
def dynamic_mem_size (d : IOStreamDynamicMemData) : Int :=
  mem_size d.data

/- dynamic_mem_seek: delegates to mem_seek on the embedded triple. -/
def dynamic_mem_seek (d : IOStreamDynamicMemData) (offset : Int) (whence : SDL_IOWhence) :
    Int × IOStreamDynamicMemData :=
  let r := mem_seek d.data offset whence
  (r.1, { d with data := r.2 })

/- dynamic_mem_read: delegates to mem_io in the read direction. -/
def dynamic_mem_read (d : IOStreamDynamicMemData) (size : Nat) :
    Nat × List Nat × IOStreamDynamicMemData :=
  let r := mem_io_read d.data size
  (r.1, r.2.1, { d with data := r.2.2 })

/- dynamic_mem_realloc.  `chunks = ((end - base) + size) / chunksize + 1`,
`length = chunks * chunksize`; on success the buffer is reallocated to
`length` bytes, here/stop keep their offsets from base, allocEnd becomes
`length` and the stream property memoryPtr is updated to the new base.

`reallocOk` models whether SDL_realloc succeeds.  `ubRet` models the return
value of the success path: the C function is declared SDL_bool but its
success path has NO return statement (the `return SDL_SetPointerProperty...`
line is commented out), so the value the caller reads is indeterminate;
`ubRet` stands for that indeterminate value. -/
def dynamic_mem_realloc (d : IOStreamDynamicMemData) (props : SDL_Props)
    (size : Nat) (reallocOk : Bool) (ubRet : Bool) :
    Bool × IOStreamDynamicMemData × SDL_Props :=
  let chunksize := if props.chunkSize = 0 then 1024 else props.chunkSize
  let chunks := ((d.allocEnd + size) / chunksize) + 1
  let length := chunks * chunksize
  if reallocOk = false then
    (false, d, props)
  else
    let base := d.data.buf.take length ++ List.replicate (length - d.data.buf.length) 0
    (ubRet,
     { data := { buf := base, here := d.data.here, stop := d.data.stop },
       allocEnd := length },
     { props with memoryPtr := some base })

/- dynamic_mem_write: if `size` does not fit in [here, stop) then, if it
also does not fit in [here, end), reallocate (returning 0 if the SDL_bool
read from dynamic_mem_realloc is false); then advance stop to here + size;
finally copy via mem_io. -/
def dynamic_mem_write (d : IOStreamDynamicMemData) (props : SDL_Props)
    (ptr : List Nat) (size : Nat) (reallocOk : Bool) (ubRet : Bool) :
    Nat × IOStreamDynamicMemData × SDL_Props :=
  if size > d.data.stop - d.data.here then
    let r :=
      if size > d.allocEnd - d.data.here then
        dynamic_mem_realloc d props size reallocOk ubRet
      else
        (true, d, props)
    if r.1 = false then
      (0, r.2.1, r.2.2)
    else
      let d2 := { r.2.1 with data := { r.2.1.data with stop := r.2.1.data.here + size } }
      let w := mem_io_write d2.data ptr size
      (w.1, { d2 with data := w.2 }, r.2.2)
  else
    let w := mem_io_write d.data ptr size
    (w.1, { d with data := w.2 }, props)

/- State of a modelled file-descriptor sink used to exercise SDL_SaveFile_IO:
`results` prescribes, per fd_write call, either a would-block condition
(eagain = true: the OS write fails with EAGAIN, so fd_write reports 0 bytes
and status NOT_READY) or acceptance of `n` bytes.  `sent` records the bytes
actually accepted by each call, in order. -/
structure SinkData where
  results : List (Nat × Bool)
  sent : List (List Nat)
deriving DecidableEq, Inhabited

/- Backend state attached to a stream handle (the `userdata` pointer).
`mem` is IOStreamMemData from SDL_IOFromMem / SDL_IOFromConstMem.
`fdPipe rem` models IOStreamFDData for a pipe-like descriptor whose buffered
contents are `rem` followed by end-of-file: read returns up to the requested
count, lseek fails (ESPIPE).  `fdErr eagain` models IOStreamFDData whose OS
read/write fails: with EAGAIN (status NOT_READY, no error message) if
`eagain`, otherwise with an error message set.  `sink` is as above. -/
inductive Userdata where
  | mem : IOStreamMemData → Userdata
  | fdPipe : List Nat → Userdata
  | fdErr : Bool → Userdata
  | sink : SinkData → Userdata
deriving DecidableEq, Inhabited

/- The capability table of SDL_IOStreamInterface: `version` plus one flag
per function pointer (true = non-NULL).  The concrete semantics of each
present capability is fixed by the backend variant in `Userdata`, exactly as
each constructor in the C file pairs one userdata type with one set of
functions. -/
structure IfaceCaps where
  version : Nat
  size : Bool
  seek : Bool
  read : Bool
  write : Bool
  flush : Bool
  close : Bool
deriving DecidableEq, Inhabited

/- Abstract stand-in for sizeof(SDL_IOStreamInterface); only positivity and
comparison against itself matter. -/
def ifaceVersionSize : Nat := 1

/- The all-NULL interface produced by memset/SDL_calloc. -/
def emptyCaps : IfaceCaps :=
  { version := 0, size := false, seek := false, read := false,
    write := false, flush := false, close := false }

/- struct SDL_IOStream: interface, userdata, status, props. -/
structure SDL_IOStream where
  iface : IfaceCaps
  userdata : Userdata
  status : SDL_IOStatus
  props : SDL_Props
deriving DecidableEq, Inhabited

/- Dispatch of iface.read: per-variant read semantics (mem_read for mem,
fd_read for the fd variants).  Takes the current status (the out-parameter
`*status`, which holds SDL_IO_STATUS_READY when the backend is called) and
returns (bytes, data, new userdata, new status, backend set an error
message?). -/
def backendRead (u : Userdata) (st : SDL_IOStatus) (size : Nat) :
    Nat × List Nat × Userdata × SDL_IOStatus × Bool :=
  match u with
  | .mem m =>
      let r := mem_io_read m size
      (r.1, r.2.1, .mem r.2.2, st, false)
  | .fdPipe rem =>
      let k := min size rem.length
      (k, rem.take k, .fdPipe (rem.drop k), st, false)
  | .fdErr eagain =>
      if eagain then (0, [], u, .NOT_READY, false) else (0, [], u, st, true)
  | .sink _ => (0, [], u, st, false)

/- Dispatch of iface.write (mem_write for mem, fd_write for the fd
variants).  Returns (bytes written, new userdata, new status, backend set an
error message?). -/
def backendWrite (u : Userdata) (st : SDL_IOStatus) (bytes : List Nat) (size : Nat) :
    Nat × Userdata × SDL_IOStatus × Bool :=
  match u with
  | .mem m =>
      let r := mem_io_write m bytes size
      (r.1, .mem r.2, st, false)
  | .fdPipe rem => (size, .fdPipe rem, st, false)
  | .fdErr eagain =>
      if eagain then (0, u, .NOT_READY, false) else (0, u, st, true)
  | .sink s =>
      match s.results with
      | [] => (size, .sink ⟨[], s.sent ++ [bytes.take size]⟩, st, false)
      | (n, eagain) :: rest =>
          if eagain then (0, .sink ⟨rest, s.sent ++ [[]]⟩, .NOT_READY, false)
          else (n, .sink ⟨rest, s.sent ++ [bytes.take n]⟩, st, false)

/- Dispatch of iface.seek (mem_seek for mem; lseek on a pipe-like descriptor
fails with ESPIPE, modelled by -1). -/
def backendSeek (u : Userdata) (offset : Int) (whence : SDL_IOWhence) :
    Int × Userdata :=
  match u with
  | .mem m =>
      let r := mem_seek m offset whence
      (r.1, .mem r.2)
  | .fdPipe rem => (-1, .fdPipe rem)
  | .fdErr e => (-1, .fdErr e)
  | .sink s => (-1, .sink s)

/- Dispatch of iface.size (mem_size; the fd interface installs no size
function, so the other branches are unreachable through dispatch). -/
def backendSize (u : Userdata) : Int :=
  match u with
  | .mem m => mem_size m
  | _ => -1

/- Dispatch of iface.close: mem_close frees the userdata and returns
SDL_TRUE; fd_close succeeds when the descriptor closes cleanly. -/
def backendClose (u : Userdata) : Bool :=
  match u with
  | _ => true

/- SDL_OpenIO.  The C function validates iface->version, then SDL_callocs
the stream and sets only `userdata`: the line copying the caller's interface
into the stream (`SDL_copyp(&iostr->iface, iface)`) is commented out in this
backport, so the stream keeps the all-zero interface from SDL_calloc.  The
model reproduces that faithfully: the returned handle's iface is `emptyCaps`
regardless of the argument.  `none` models returning NULL (the version
check; the NULL-iface check and calloc failure are not modelled). -/
def SDL_OpenIo (iface : IfaceCaps) (userdata : Userdata) : Option SDL_IOStream :=
  if iface.version < ifaceVersionSize then
    none
  else
    some { iface := emptyCaps, userdata := userdata, status := .READY,
           props := defaultProps }

/- The local interface built by SDL_IOFromMem (size/seek/read/write/close). -/
def mem_iface : IfaceCaps :=
  { version := ifaceVersionSize, size := true, seek := true, read := true,
    write := true, flush := false, close := true }

/- The local interface built by SDL_IOFromConstMem (write left NULL). -/
def const_mem_iface : IfaceCaps :=
  { version := ifaceVersionSize, size := true, seek := true, read := true,
    write := false, flush := false, close := true }

/- The local interface built by SDL_IOFromFD (no size function). -/
def fd_iface : IfaceCaps :=
  { version := ifaceVersionSize, size := false, seek := true, read := true,
    write := true, flush := true, close := true }

/- SDL_IOFromMem.  The C function takes (mem, size); `none` models a NULL
`mem` pointer and for `some l` the region described by (mem, size) is `l`,
so the `!size` check is `l = []`.  Rejections return NULL after
SDL_InvalidParamError.  On success the mem triple is base=0, here=0,
stop=size and the stream properties record the pointer and size. -/
def SDL_IOFromMem (mem : Option (List Nat)) : Option SDL_IOStream :=
  match mem with
  | none => none
  | some l =>
      if l.length = 0 then none
      else
        let iodata : IOStreamMemData := { buf := l, here := 0, stop := l.length }
        match SDL_OpenIo mem_iface (.mem iodata) with
        | none => none
        | some h =>
            some { h with props := { h.props with memoryPtr := some l, memorySize := l.length } }

/- SDL_IOFromConstMem: as SDL_IOFromMem but with the read-only interface. -/
def SDL_IOFromConstMem (mem : Option (List Nat)) : Option SDL_IOStream :=
  match mem with
  | none => none
  | some l =>
      if l.length = 0 then none
      else
        let iodata : IOStreamMemData := { buf := l, here := 0, stop := l.length }
        match SDL_OpenIo const_mem_iface (.mem iodata) with
        | none => none
        | some h =>
            some { h with props := { h.props with memoryPtr := some l, memorySize := l.length } }

/- SDL_GetIOStatus (non-null handle). -/
def SDL_GetIOStatus (h : SDL_IOStream) : SDL_IOStatus :=
  h.status

/- SDL_CloseIO (non-null handle): calls iface.close when present, then frees
the stream.  The second component instruments whether the backend close
capability was actually invoked (needed to state claims about teardown);
the first is the returned SDL_bool. -/
def SDL_CloseIo (h : SDL_IOStream) : Bool × Bool :=
  if h.iface.close then (backendClose h.userdata, true) else (true, false)

/- SDL_ReadIO (non-null handle): WRITEONLY if no read capability; else reset
status to READY and clear the error, return 0 early for size = 0, else call
the backend and reclassify a 0-byte READY result to ERROR (error message
set) or EOF.  Returns (bytes, data, handle, error-message flag at exit). -/
def SDL_ReadIo (h : SDL_IOStream) (size : Nat) : Nat × List Nat × SDL_IOStream × Bool :=
  if h.iface.read = false then
    (0, [], { h with status := .WRITEONLY }, true)
  else
    let h1 := { h with status := .READY }
    if size = 0 then
      (0, [], h1, false)
    else
      let r := backendRead h1.userdata .READY size
      let st :=
        if r.1 = 0 ∧ r.2.2.2.1 = .READY then
          if r.2.2.2.2 then SDL_IOStatus.ERROR else SDL_IOStatus.EOF
        else r.2.2.2.1
      (r.1, r.2.1, { h1 with userdata := r.2.2.1, status := st }, r.2.2.2.2)

/- SDL_WriteIO (non-null handle): READONLY if no write capability; else reset
status to READY and clear the error, return 0 early for size = 0, else call
the backend and reclassify a 0-byte READY result to ERROR unconditionally. -/
def SDL_WriteIo (h : SDL_IOStream) (bytes : List Nat) (size : Nat) :
    Nat × SDL_IOStream :=
  if h.iface.write = false then
    (0, { h with status := .READONLY })
  else
    let h1 := { h with status := .READY }
    if size = 0 then
      (0, h1)
    else
      let r := backendWrite h1.userdata .READY bytes size
      let st := if r.1 = 0 ∧ r.2.2.1 = .READY then SDL_IOStatus.ERROR else r.2.2.1
      (r.1, { h1 with userdata := r.2.1, status := st })

/- SDL_SeekIO (non-null handle): -1 with SDL_Unsupported if no seek
capability (status untouched), else dispatch. -/
def SDL_SeekIo (h : SDL_IOStream) (offset : Int) (whence : SDL_IOWhence) :
    Int × SDL_IOStream :=
  if h.iface.seek = false then
    (-1, h)
  else
    let r := backendSeek h.userdata offset whence
    (r.1, { h with userdata := r.2 })

/- SDL_GetIOSize (non-null handle): if the backend has no size capability,
emulate it by seek(0,CUR), seek(0,END), seek(pos,SET), failing with -1 if
the first seek fails; the restore seek's result is ignored and the END
result is returned as is. -/
def SDL_GetIOSize (h : SDL_IOStream) : Int × SDL_IOStream :=
  if h.iface.size = false then
    let r1 := SDL_SeekIo h 0 .SEEK_CUR
    if r1.1 < 0 then
      (-1, r1.2)
    else
      let r2 := SDL_SeekIo r1.2 0 .SEEK_END
      let r3 := SDL_SeekIo r2.2 r1.1 .SEEK_SET
      (r2.1, r3.2)
  else
    (backendSize h.userdata, h)

/- Little-endian byte decoding: first byte is least significant. -/
def leDecode (bs : List Nat) : Nat :=
  bs.foldr (fun b acc => b + 256 * acc) 0

/- Big-endian byte decoding. -/
def beDecode (bs : List Nat) : Nat :=
  leDecode bs.reverse

/- Common shape of the SDL_Read{U8,U16,U32,U64}{LE,BE} functions: a local
`data` initialized to zero, exactly one SDL_ReadIO of the scalar width, the
result flag comparing the count to the width, and `*value = swap(data)`
executed unconditionally.  The memory image of `data` after the call is the
bytes actually read followed by the remaining zero bytes, and
SDL_SwapLE/SDL_SwapBE composed with the host-order interpretation of that
image is exactly the little/big-endian decoding of the image, independent of
host endianness — which is how the swap is modelled.  The NULL-value-pointer
case is not modelled (the claims concern the delivered value). -/
def readScalar (src : SDL_IOStream) (w : Nat) (be : Bool) :
    Bool × Nat × SDL_IOStream :=
  let r := SDL_ReadIo src w
  let buffer := r.2.1 ++ List.replicate (w - r.2.1.length) 0
  (decide (r.1 = w), if be then beDecode buffer else leDecode buffer, r.2.2.1)

/- SDL_ReadU8Ptr: width 1, no swap (byte order irrelevant at width 1). -/
def SDL_ReadU8Ptr (src : SDL_IOStream) : Bool × Nat × SDL_IOStream :=
  readScalar src 1 false

/- SDL_ReadU16LE. -/
def SDL_ReadU16LE (src : SDL_IOStream) : Bool × Nat × SDL_IOStream :=
  readScalar src 2 false

/- SDL_ReadU16BE. -/
def SDL_ReadU16BE (src : SDL_IOStream) : Bool × Nat × SDL_IOStream :=
  readScalar src 2 true

/- SDL_ReadU32LE. -/
def SDL_ReadU32LE (src : SDL_IOStream) : Bool × Nat × SDL_IOStream :=
  readScalar src 4 false

/- SDL_ReadU32BE. -/
def SDL_ReadU32BE (src : SDL_IOStream) : Bool × Nat × SDL_IOStream :=
  readScalar src 4 true

/- SDL_ReadU64LE. -/
def SDL_ReadU64LE (src : SDL_IOStream) : Bool × Nat × SDL_IOStream :=
  readScalar src 8 false

/- SDL_ReadU64BE. -/
def SDL_ReadU64BE (src : SDL_IOStream) : Bool × Nat × SDL_IOStream :=
  readScalar src 8 true

/- SIZE_MAX on the modelled 64-bit target (the comparison in
SDL_LoadFile_IO promotes the Sint64 to Uint64; the compared value is
non-negative in every path, so plain Int comparison is faithful). -/
def SIZE_MAX : Int := 2 ^ 64 - 1

/- The for(;;) loop of SDL_LoadFile_IO.  State: the stream, the malloc'd
buffer `data` (length size+1), the current logical capacity `size`, the
running total and the loading_chunks flag.  Fuel bounds the iteration count;
`none` means the fuel ran out (the theorems always supply enough).  Result
`some (none, n)` models returning NULL with *datasize = n (the realloc
failure path); `some (some buf, n)` models returning `buf` with
*datasize = n.  SDL_Delay(1) on NOT_READY is a no-op in the model. -/
def loadLoop : Nat → SDL_IOStream → List Nat → Int → Nat → Bool →
    Option (Option (List Nat) × Nat)
  | 0, _, _, _, _, _ => none
  | f + 1, src, data, size, size_total, loading_chunks =>
      let grow := loading_chunks && decide ((size_total : Int) + 1024 > size)
      let size2 : Int := if grow then (size_total : Int) + 1024 else size
      if grow && decide (size2 ≥ SIZE_MAX - 1) then
        some (none, size_total)
      else
        let data2 :=
          if grow then
            data.take (size2.toNat + 1) ++
              List.replicate ((size2.toNat + 1) - data.length) 0
          else data
        let r := SDL_ReadIo src (size2 - size_total).toNat
        let data3 := overlay data2 size_total r.2.1
        if 0 < r.1 then
          loadLoop f r.2.2.1 data3 size2 (size_total + r.1) loading_chunks
        else if SDL_GetIOStatus r.2.2.1 = .NOT_READY then
          loadLoop f r.2.2.1 data3 size2 size_total loading_chunks
        else
          some (some (overlay data3 size_total [0]), size_total)

/- SDL_LoadFile_IO (non-null src).  Queries the size; on failure falls back
to FILE_CHUNK_SIZE = 1024 with loading_chunks set; rejects sizes at or above
SIZE_MAX - 1; mallocs size+1 zero bytes and runs the loop.  The closeio
teardown does not affect the returned (data, datasize) pair and is omitted
from the result. -/
def SDL_LoadFile_Io (src : SDL_IOStream) (fuel : Nat) :
    Option (Option (List Nat) × Nat) :=
  let r0 := SDL_GetIOSize src
  let loading := decide (r0.1 < 0)
  let size : Int := if r0.1 < 0 then 1024 else r0.1
  if size ≥ SIZE_MAX - 1 then
    some (none, 0)
  else
    loadLoop fuel r0.2 (List.replicate (size.toNat + 1) 0) size 0 loading

/- The while loop of SDL_SaveFile_IO, including the backport's use of
`size_written` (the count returned by the PREVIOUS SDL_WriteIO call, reset
to 0 by a would-block iteration) rather than `size_total` as the offset into
`data` for the next write.  Fuel as in loadLoop. -/
def saveLoop : Nat → SDL_IOStream → List Nat → Nat → Nat → Nat →
    Option (Bool × SDL_IOStream)
  | 0, _, _, _, _, _ => none
  | f + 1, src, data, datasize, size_written, size_total =>
      if size_total < datasize then
        let chunk := (data.drop size_written).take (datasize - size_written)
        let r := SDL_WriteIo src chunk (datasize - size_written)
        if r.1 = 0 then
          if SDL_GetIOStatus r.2 = .NOT_READY then
            saveLoop f r.2 data datasize r.1 size_total
          else
            some (false, r.2)
        else
          saveLoop f r.2 data datasize r.1 (size_total + r.1)
      else
        some (true, src)

/- SDL_SaveFile_IO (non-null src, non-null data): nothing is written for
datasize = 0; the closeio teardown does not affect the success value and is
omitted. -/
def SDL_SaveFile_Io (src : SDL_IOStream) (data : List Nat) (datasize : Nat)
    (fuel : Nat) : Option (Bool × SDL_IOStream) :=
  if 0 < datasize then saveLoop fuel src data datasize 0 0
  else some (true, src)

/- A stream over a pipe-like descriptor with buffered contents `rem`: the
handle SDL_IOFromFD intends to build (the interface the constructor passes
to SDL_OpenIO), whose size query fails because the fd interface has no size
function and lseek fails on a pipe. -/
def pipeHandle (rem : List Nat) : SDL_IOStream :=
  { iface := fd_iface, userdata := .fdPipe rem, status := .READY,
    props := defaultProps }

/- A read-only memory stream over state `m`: the handle SDL_IOFromConstMem
intends to build (the interface it passes to SDL_OpenIO). -/
def memHandleR (m : IOStreamMemData) : SDL_IOStream :=
  { iface := const_mem_iface, userdata := .mem m, status := .READY,
    props := defaultProps }

/- A read-write memory stream over state `m`: the handle SDL_IOFromMem
intends to build. -/
def memHandleRW (m : IOStreamMemData) : SDL_IOStream :=
  { iface := mem_iface, userdata := .mem m, status := .READY,
    props := defaultProps }

/- A descriptor-backed stream whose OS writes behave as prescribed by the
oracle `results`. -/
def sinkHandle (results : List (Nat × Bool)) : SDL_IOStream :=
  { iface := fd_iface, userdata := .sink ⟨results, []⟩, status := .READY,
    props := defaultProps }

/- Size of the wrapped memory region of a fixed-memory handle (stop - base),
0 for other backends. -/
def memRegionStop (h : SDL_IOStream) : Nat :=
  match h.userdata with
  | .mem m => m.stop
  | _ => 0

/- Transcript of bytes accepted by a sink-backed stream. -/
def sinkSent (h : SDL_IOStream) : List (List Nat) :=
  match h.userdata with
  | .sink s => s.sent
  | _ => []

/- The freshly constructed growable stream state: SDL_calloc zeroes the
IOStreamDynamicMemData, so base = here = stop = end = NULL. -/
def dyn0 : IOStreamDynamicMemData :=
  { data := { buf := [], here := 0, stop := 0 }, allocEnd := 0 }

/- A growable stream state reached from dyn0 by one 1-byte write (growth to
one default chunk): 1024 bytes allocated, 1 byte of content, cursor after
it. -/
def c4state : IOStreamDynamicMemData :=
  { data := { buf := List.replicate 1024 0, here := 1, stop := 1 }, allocEnd := 1024 }

/- Modelled from the spec: "the minimal multiple of the chunk size covering
X" — the least multiple of `c` that is ≥ `x`.  Used to compare the spec's
growth formula against the code's. -/
def specGrowthLength (c x : Nat) : Nat :=
  ((x + c - 1) / c) * c

/- The 1-byte read-only region 0xAB = 171 used to exhibit a short scalar
read. -/
def c9mem : IOStreamMemData :=
  { buf := [171], here := 0, stop := 1 }

/- The handle SDL_IOFromMem produces for the 1-byte region [3] (empty
capability table, per the SDL_OpenIO interface-copy bug). -/
def c10h : SDL_IOStream :=
  { iface := emptyCaps,
    userdata := .mem { buf := [3], here := 0, stop := 1 },
    status := .READY,
    props := { memoryPtr := some [3], memorySize := 1, chunkSize := 0 } }

/- The handle SDL_IOFromMem produces for the 1-byte region [0] (empty
capability table, per the SDL_OpenIO interface-copy bug). -/
def c1h : SDL_IOStream :=
  { iface := emptyCaps,
    userdata := .mem { buf := [0], here := 0, stop := 1 },
    status := .READY,
    props := { memoryPtr := some [0], memorySize := 1, chunkSize := 0 } }

/- Helper: overlaying the empty byte vector is the identity. -/
theorem overlay_nil (l : List Nat) (i : Nat) : overlay l i [] = l := by
  simp [overlay]

/- Helper: an in-bounds overlay preserves the buffer length. -/
theorem overlay_length (l v : List Nat) (i : Nat) (h : i + v.length ≤ l.length) :
    (overlay l i v).length = l.length := by
  simp [overlay]
  omega

/- Helper: an overlay at offset i leaves the first i bytes unchanged. -/
theorem overlay_take_self (l v : List Nat) (i : Nat) (h : i ≤ l.length) :
    (overlay l i v).take i = l.take i := by
  simp [overlay, List.take_append_eq_append_take, List.take_take, List.length_take]
  omega

/- Helper: the first i + |v| bytes after an overlay at offset i are the old
prefix followed by v. -/
theorem overlay_take_full (l v : List Nat) (i : Nat) (h : i ≤ l.length) :
    (overlay l i v).take (i + v.length) = l.take i ++ v := by
  have hlt : (l.take i).length = i := by
    simp [List.length_take]
    omega
  have h1 : overlay l i v = (l.take i ++ v) ++ l.drop (i + v.length) := by
    simp [overlay]
  rw [h1, List.take_append_eq_append_take]
  have h2 : (l.take i ++ v).length = i + v.length := by
    simp [hlt]
  rw [List.take_of_length_le (le_of_eq h2), h2, Nat.sub_self, List.take_zero,
    List.append_nil]

/- Helper: the byte at offset i after overlaying c :: v at offset i is c. -/
theorem overlay_getElem (l v : List Nat) (i c : Nat) (h : i ≤ l.length) :
    (overlay l i (c :: v))[i]? = some c := by
  have hlt : (l.take i).length = i := by
    simp [List.length_take]
    omega
  have h1 : overlay l i (c :: v) = l.take i ++ (c :: (v ++ l.drop (i + (c :: v).length))) := by
    simp [overlay]
  rw [h1, List.getElem?_append_right (le_of_eq hlt)]
  simp [hlt]

/-- C1 (code_bug evidence): closing the handle that SDL_IOFromMem returns
for the 1-byte region [0] succeeds (returns SDL_TRUE) but never invokes the
backend's close capability, because SDL_OpenIO left the handle's interface
zeroed (the SDL_copyp that should install it is commented out).  The claim
says backend close is invoked and its success value returned. -/
theorem C1_close_never_calls_backend :
    SDL_IOFromMem (some [0]) = some c1h ∧
    c1h.iface.close = false ∧
    SDL_CloseIo c1h = (true, false) := by
  decide

/-- C2 (code_bug evidence): on the handle SDL_IOFromMem returns for a 1-byte
region, write([7]) transfers 0 bytes and sets status READONLY, seek(0,SET)
fails with -1, and the subsequent read returns no bytes (status WRITEONLY) —
the write/seek/read round-trip cannot return the written bytes because the
handle's interface is empty.  The claim says the read returns exactly [7]. -/
theorem C2_roundtrip_fails_on_constructed_handle :
    SDL_IOFromMem (some [0]) = some c1h ∧
    (SDL_WriteIo c1h [7] 1).1 = 0 ∧
    (SDL_WriteIo c1h [7] 1).2.status = .READONLY ∧
    (SDL_SeekIo (SDL_WriteIo c1h [7] 1).2 0 .SEEK_SET).1 = -1 ∧
    (SDL_ReadIo (SDL_SeekIo (SDL_WriteIo c1h [7] 1).2 0 .SEEK_SET).2 1).2.1 = [] ∧
    ([] : List Nat) ≠ [7] := by
  decide

/-- C3 (code_bug evidence): writing 1 byte to the freshly constructed
growable stream.  When SDL_realloc fails the write reports 0 and the state
is unchanged (first two conjuncts, for either indeterminate value).  But
when SDL_realloc succeeds, dynamic_mem_realloc's missing return statement
makes the SDL_bool its caller reads indeterminate: if it reads as false the
write reports 0 bytes even though the backing buffer was already reallocated
to 1024 bytes (state changed), and only if it reads as true are all bytes
transferred — contradicting the claim that in every non-failure case the
write transfers all len bytes. -/
theorem C3_growth_write_missing_return :
    (dynamic_mem_write dyn0 defaultProps [5] 1 false true = (0, dyn0, defaultProps)) ∧
    (dynamic_mem_write dyn0 defaultProps [5] 1 false false = (0, dyn0, defaultProps)) ∧
    ((dynamic_mem_write dyn0 defaultProps [5] 1 true false).1 = 0 ∧
     (dynamic_mem_write dyn0 defaultProps [5] 1 true false).2.1.allocEnd = 1024) ∧
    (dynamic_mem_write dyn0 defaultProps [5] 1 true true).1 = 1 := by
  decide

/-- C4 (counterexample): growing c4state (1024 bytes allocated, 1 byte of
content, cursor at 1 — the state one 1-byte write after construction) by
len = 1024 reallocates to 3072 bytes, but the minimal multiple of the chunk
size 1024 covering content + len + 1 = 1 + 1024 + 1 = 1026 is 2048 — a
strictly smaller covering multiple — so the code does not reallocate to the
minimal multiple covering the current CONTENT length plus len plus one. -/
theorem C4_growth_not_content_minimal :
    (dynamic_mem_realloc c4state defaultProps 1024 true true).2.1.allocEnd = 3072 ∧
    specGrowthLength 1024 (c4state.data.stop + 1024 + 1) = 2048 ∧
    c4state.data.stop + 1024 + 1 ≤ 2048 ∧ 2048 % 1024 = 0 ∧
    (2048 : Nat) < 3072 ∧ (3072 : Nat) ≠ 2048 := by
  decide

/-- C9 (counterexample): reading a 16-bit little-endian scalar from a 1-byte
memory stream containing 0xAB = 171.  The single underlying read call
returns 1 byte (fewer than the width), the function returns false as
claimed, but the output value is 171, not zero: the byte-swap is applied to
the partially filled buffer (the BE variant delivers 171 * 256 = 43776). -/
theorem C9_short_read_value_nonzero :
    (SDL_ReadIo (memHandleR c9mem) 2).1 = 1 ∧
    (SDL_ReadU16LE (memHandleR c9mem)).1 = false ∧
    (SDL_ReadU16LE (memHandleR c9mem)).2.1 = 171 ∧
    (171 : Nat) ≠ 0 ∧
    (SDL_ReadU16BE (memHandleR c9mem)).2.1 = 43776 := by
  decide

/-- C5 (code_bug evidence): saving the 2-byte buffer [10, 20] over a
descriptor stream whose OS writes accept 1 byte, then would-block, then
accept 2 bytes.  The would-block iteration resets size_written to 0, and the
retry then writes from data + size_written = data + 0 instead of the
unwritten tail data + size_total = data + 1: the accepted chunks are
[10], [], [10, 20], i.e. the byte 10 at offset 0 is transmitted twice, yet
the call reports success.  The claim says each retry resumes from the
unwritten tail with no byte sent twice. -/
theorem C5_savefile_resends_bytes :
    ((SDL_SaveFile_Io (sinkHandle [(1, false), (0, true), (2, false)]) [10, 20] 2 9).map
        (fun p => (p.1, sinkSent p.2))) = some (true, [[10], [], [10, 20]]) ∧
    ([[10], [], [10, 20]] : List (List Nat)).flatten = [10, 10, 20] ∧
    ([10, 10, 20] : List Nat) ≠ [10, 20] := by
  decide

/-- C7 (confirmed): for every memory-backend state, offset and whence, seek
never fails: the returned position equals the new cursor offset and lies in
[0, size()]; the growable backend delegates to the same clamping seek; and
seeking +10 from End on a 5-byte region yields position 5. -/
theorem C7_mem_seek_clamps :
    (∀ (m : IOStreamMemData) (offset : Int) (whence : SDL_IOWhence),
        0 ≤ (mem_seek m offset whence).1 ∧
        (mem_seek m offset whence).1 ≤ mem_size m ∧
        ((mem_seek m offset whence).2.here : Int) = (mem_seek m offset whence).1 ∧
        (mem_seek m offset whence).2.stop = m.stop) ∧
    (∀ (d : IOStreamDynamicMemData) (offset : Int) (whence : SDL_IOWhence),
        (dynamic_mem_seek d offset whence).1 = (mem_seek d.data offset whence).1 ∧
        (dynamic_mem_seek d offset whence).2.data = (mem_seek d.data offset whence).2) ∧
    (mem_seek { buf := List.replicate 5 0, here := 0, stop := 5 } 10 .SEEK_END).1 = 5 := by
  refine ⟨?_, ?_, by decide⟩
  · intro m offset whence
    rcases whence <;>
      simp only [mem_seek, mem_size] <;>
      split_ifs <;>
      refine ⟨?_, ?_, ?_, ?_⟩ <;>
      first
        | trivial
        | omega
  · intro d offset whence
    exact ⟨rfl, rfl⟩

/-- C10 (confirmed): SDL_IOFromMem and SDL_IOFromConstMem return NULL when
the memory pointer is null (`none`) or the size is zero (empty region), and
every successfully constructed fixed-memory handle wraps a region of
positive size. -/
theorem C10_from_mem_requires_nonempty :
    (SDL_IOFromMem none = none ∧ SDL_IOFromConstMem none = none ∧
     SDL_IOFromMem (some []) = none ∧ SDL_IOFromConstMem (some []) = none) ∧
    ∀ (o : Option (List Nat)) (h : SDL_IOStream),
      SDL_IOFromMem o = some h ∨ SDL_IOFromConstMem o = some h →
      0 < memRegionStop h := by
  refine ⟨⟨rfl, rfl, rfl, rfl⟩, ?_⟩
  intro o h hc
  match o with
  | none =>
      rcases hc with hc | hc <;> simp [SDL_IOFromMem, SDL_IOFromConstMem] at hc
  | some [] =>
      rcases hc with hc | hc <;> simp [SDL_IOFromMem, SDL_IOFromConstMem] at hc
  | some (a :: t) =>
      rcases hc with hc | hc <;>
        · simp [SDL_IOFromMem, SDL_IOFromConstMem, SDL_OpenIo, ifaceVersionSize,
            mem_iface, const_mem_iface] at hc
          subst hc
          simp [memRegionStop]

/-- C10 witness: the constructor applied to the 1-byte region [3] yields the
concrete handle c10h, which wraps a non-empty region. -/
theorem C10_from_mem_requires_nonempty_witness :
    SDL_IOFromMem (some [3]) = some c10h ∧ 0 < memRegionStop c10h :=
  ⟨rfl, C10_from_mem_requires_nonempty.2 (some [3]) c10h (Or.inl rfl)⟩

/-- C4 (amended, confirmed): whenever the growable backend grows and
SDL_realloc succeeds, the new allocation length is the minimal multiple of
the chunk size (default 1024 when unset) covering the current ALLOCATED
length (allocated_end - base) plus len plus one reserved terminator byte,
the backing buffer is reallocated to exactly that length, and cursor and
stop keep their offsets from the (new) base. -/
theorem C4_growth_allocated_minimal :
    ∀ (d : IOStreamDynamicMemData) (props : SDL_Props) (size : Nat) (ub : Bool),
      ((dynamic_mem_realloc d props size true ub).2.1.allocEnd %
          (if props.chunkSize = 0 then 1024 else props.chunkSize) = 0) ∧
      d.allocEnd + size + 1 ≤ (dynamic_mem_realloc d props size true ub).2.1.allocEnd ∧
      (dynamic_mem_realloc d props size true ub).2.1.allocEnd <
        d.allocEnd + size + 1 + (if props.chunkSize = 0 then 1024 else props.chunkSize) ∧
      (dynamic_mem_realloc d props size true ub).2.1.data.here = d.data.here ∧
      (dynamic_mem_realloc d props size true ub).2.1.data.stop = d.data.stop ∧
      (dynamic_mem_realloc d props size true ub).2.1.data.buf.length =
        (dynamic_mem_realloc d props size true ub).2.1.allocEnd := by
  intro d props size ub
  have hc : 0 < (if props.chunkSize = 0 then 1024 else props.chunkSize) := by
    split <;> omega
  simp only [dynamic_mem_realloc]
  set c := if props.chunkSize = 0 then 1024 else props.chunkSize with hcdef
  set A := d.allocEnd + size with hAdef
  simp only [Bool.true_eq_false, if_false]
  refine ⟨?_, ?_, ?_, ?_, ?_, ?_⟩
  · exact Nat.mul_mod_left _ _
  · have h1 := Nat.div_add_mod A c
    have h2 := Nat.mod_lt A hc
    have h3 : (A / c + 1) * c = c * (A / c) + c := by ring
    rw [h3]
    omega
  · have h4 := Nat.div_mul_le_self A c
    have h3 : (A / c + 1) * c = A / c * c + c := by ring
    rw [h3]
    omega
  · trivial
  · trivial
  · simp [List.length_take]
    omega

/-- C6 (confirmed): for every non-null handle with the read capability and
positive request, if the backend read reports 0 bytes with status still
READY afterward, SDL_ReadIO reclassifies the status to ERROR when the
backend set an error message and to EOF otherwise; for every handle with
the write capability, a 0-byte backend write with status still READY is
reclassified to ERROR unconditionally. -/
theorem C6_zero_result_reclassification :
    (∀ (h : SDL_IOStream) (n : Nat),
        h.iface.read = true → n ≠ 0 →
        (backendRead h.userdata .READY n).1 = 0 →
        (backendRead h.userdata .READY n).2.2.2.1 = .READY →
        (SDL_ReadIo h n).2.2.1.status =
          (if (backendRead h.userdata .READY n).2.2.2.2 then SDL_IOStatus.ERROR
           else SDL_IOStatus.EOF)) ∧
    (∀ (h : SDL_IOStream) (bytes : List Nat) (n : Nat),
        h.iface.write = true → n ≠ 0 →
        (backendWrite h.userdata .READY bytes n).1 = 0 →
        (backendWrite h.userdata .READY bytes n).2.2.1 = .READY →
        (SDL_WriteIo h bytes n).2.status = .ERROR) := by
  constructor
  · intro h n hr hn h0 hst
    simp only [SDL_ReadIo, hr, Bool.true_eq_false, if_false, if_neg hn]
    simp only [h0, hst, and_self, if_true, if_pos]
  · intro h bytes n hw hn h0 hst
    simp only [SDL_WriteIo, hw, Bool.true_eq_false, if_false, if_neg hn]
    simp only [h0, hst, and_self, if_true, if_pos]

/-- C6 witness: reading at end-of-data on a drained descriptor stream
reclassifies to EOF; a backend read that fails with an error message
reclassifies to ERROR; a 0-byte write into a full memory region
reclassifies to ERROR. -/
theorem C6_zero_result_reclassification_witness :
    (SDL_ReadIo (pipeHandle []) 1).2.2.1.status = .EOF ∧
    (SDL_ReadIo { iface := fd_iface, userdata := .fdErr false, status := .READY,
                  props := defaultProps } 1).2.2.1.status = .ERROR ∧
    (SDL_WriteIo (memHandleRW { buf := [4], here := 1, stop := 1 }) [9] 1).2.status =
      .ERROR := by
  refine ⟨?_, ?_, ?_⟩
  · exact (C6_zero_result_reclassification.1 (pipeHandle []) 1 rfl (by decide)
      (by decide) (by decide)).trans (by decide)
  · exact (C6_zero_result_reclassification.1 _ 1 rfl (by decide)
      (by decide) (by decide)).trans (by decide)
  · exact C6_zero_result_reclassification.2 (memHandleRW { buf := [4], here := 1, stop := 1 })
      [9] 1 rfl (by decide) (by decide) (by decide)

/- Helper: SDL_ReadIO on a read-only memory stream, evaluated symbolically:
the count is the request clamped to the available bytes, the data is the
corresponding slice, the cursor advances, and the status is EOF exactly when
the clamped count is zero (the mem backend never sets an error message). -/
theorem readIo_memR (m : IOStreamMemData) (n : Nat) (hn : n ≠ 0) :
    SDL_ReadIo (memHandleR m) n =
      (if n > m.stop - m.here then m.stop - m.here else n,
       (m.buf.drop m.here).take (if n > m.stop - m.here then m.stop - m.here else n),
       { iface := const_mem_iface,
         userdata := .mem { m with
           here := m.here + (if n > m.stop - m.here then m.stop - m.here else n) },
         status := if (if n > m.stop - m.here then m.stop - m.here else n) = 0 then
             SDL_IOStatus.EOF else SDL_IOStatus.READY,
         props := defaultProps }, false) := by
  by_cases h0 : (if n > m.stop - m.here then m.stop - m.here else n) = 0 <;>
    simp [SDL_ReadIo, memHandleR, const_mem_iface, backendRead, mem_io_read, hn, h0]

/- Helper: the scalar readers on a read-only memory stream deliver the
result flag "full width read" and the value decoded from the bytes actually
read, padded with the zero bytes the local buffer was initialized with. -/
theorem readScalar_memR (m : IOStreamMemData) (w : Nat) (hw : w ≠ 0) (be : Bool)
    (hwf : m.stop ≤ m.buf.length) :
    (readScalar (memHandleR m) w be).1 =
        decide ((if w > m.stop - m.here then m.stop - m.here else w) = w) ∧
    (readScalar (memHandleR m) w be).2.1 =
      (if be then
        beDecode ((m.buf.drop m.here).take
            (if w > m.stop - m.here then m.stop - m.here else w) ++
          List.replicate (w - (if w > m.stop - m.here then m.stop - m.here else w)) 0)
       else
        leDecode ((m.buf.drop m.here).take
            (if w > m.stop - m.here then m.stop - m.here else w) ++
          List.replicate (w - (if w > m.stop - m.here then m.stop - m.here else w)) 0)) := by
  have hbs : ((m.buf.drop m.here).take
      (if w > m.stop - m.here then m.stop - m.here else w)).length =
      (if w > m.stop - m.here then m.stop - m.here else w) := by
    simp [List.length_take, List.length_drop]
    split <;> omega
  constructor
  · simp [readScalar, readIo_memR m w hw]
  · simp only [readScalar, readIo_memR m w hw, hbs]

/-- C9 (amended, proved): for every memory stream state with stop inside the
buffer, each fixed-width endian read delivers false exactly when the single
underlying read call returned fewer bytes than the width, and the output
value is the declared-endianness decoding of the bytes actually read
followed by the zero bytes the local buffer was initialized with — in
particular zero when no byte at all was read, but not zero in general on a
partial read. -/
theorem C9_short_read_padded (m : IOStreamMemData) (hwf : m.stop ≤ m.buf.length) :
    ((SDL_ReadU16LE (memHandleR m)).1 =
        decide ((if 2 > m.stop - m.here then m.stop - m.here else 2) = 2) ∧
     (SDL_ReadU16LE (memHandleR m)).2.1 =
       leDecode ((m.buf.drop m.here).take
           (if 2 > m.stop - m.here then m.stop - m.here else 2) ++
         List.replicate (2 - (if 2 > m.stop - m.here then m.stop - m.here else 2)) 0)) ∧
    ((SDL_ReadU16BE (memHandleR m)).1 =
        decide ((if 2 > m.stop - m.here then m.stop - m.here else 2) = 2) ∧
     (SDL_ReadU16BE (memHandleR m)).2.1 =
       beDecode ((m.buf.drop m.here).take
           (if 2 > m.stop - m.here then m.stop - m.here else 2) ++
         List.replicate (2 - (if 2 > m.stop - m.here then m.stop - m.here else 2)) 0)) ∧
    ((SDL_ReadU32LE (memHandleR m)).1 =
        decide ((if 4 > m.stop - m.here then m.stop - m.here else 4) = 4) ∧
     (SDL_ReadU32LE (memHandleR m)).2.1 =
       leDecode ((m.buf.drop m.here).take
           (if 4 > m.stop - m.here then m.stop - m.here else 4) ++
         List.replicate (4 - (if 4 > m.stop - m.here then m.stop - m.here else 4)) 0)) ∧
    ((SDL_ReadU32BE (memHandleR m)).1 =
        decide ((if 4 > m.stop - m.here then m.stop - m.here else 4) = 4) ∧
     (SDL_ReadU32BE (memHandleR m)).2.1 =
       beDecode ((m.buf.drop m.here).take
           (if 4 > m.stop - m.here then m.stop - m.here else 4) ++
         List.replicate (4 - (if 4 > m.stop - m.here then m.stop - m.here else 4)) 0)) ∧
    ((SDL_ReadU64LE (memHandleR m)).1 =
        decide ((if 8 > m.stop - m.here then m.stop - m.here else 8) = 8) ∧
     (SDL_ReadU64LE (memHandleR m)).2.1 =
       leDecode ((m.buf.drop m.here).take
           (if 8 > m.stop - m.here then m.stop - m.here else 8) ++
         List.replicate (8 - (if 8 > m.stop - m.here then m.stop - m.here else 8)) 0)) ∧
    ((SDL_ReadU64BE (memHandleR m)).1 =
        decide ((if 8 > m.stop - m.here then m.stop - m.here else 8) = 8) ∧
     (SDL_ReadU64BE (memHandleR m)).2.1 =
       beDecode ((m.buf.drop m.here).take
           (if 8 > m.stop - m.here then m.stop - m.here else 8) ++
         List.replicate (8 - (if 8 > m.stop - m.here then m.stop - m.here else 8)) 0)) ∧
    ((SDL_ReadU8Ptr (memHandleR m)).1 =
        decide ((if 1 > m.stop - m.here then m.stop - m.here else 1) = 1) ∧
     (SDL_ReadU8Ptr (memHandleR m)).2.1 =
       leDecode ((m.buf.drop m.here).take
           (if 1 > m.stop - m.here then m.stop - m.here else 1) ++
         List.replicate (1 - (if 1 > m.stop - m.here then m.stop - m.here else 1)) 0)) ∧
    (m.stop - m.here = 0 → (SDL_ReadU16LE (memHandleR m)).2.1 = 0) := by
  refine ⟨readScalar_memR m 2 (by decide) false hwf,
          readScalar_memR m 2 (by decide) true hwf,
          readScalar_memR m 4 (by decide) false hwf,
          readScalar_memR m 4 (by decide) true hwf,
          readScalar_memR m 8 (by decide) false hwf,
          readScalar_memR m 8 (by decide) true hwf,
          readScalar_memR m 1 (by decide) false hwf, ?_⟩
  intro h0
  have hv := (readScalar_memR m 2 (by decide) false hwf).2
  rw [show SDL_ReadU16LE (memHandleR m) = readScalar (memHandleR m) 2 false from rfl, hv, h0]
  simp [leDecode]

/-- C9 amended witness: the 16-bit little-endian case evaluated on the
concrete 1-byte region [171]. -/
theorem C9_short_read_padded_witness :
    (SDL_ReadU16LE (memHandleR c9mem)).1 =
        decide ((if 2 > c9mem.stop - c9mem.here then c9mem.stop - c9mem.here else 2) = 2) ∧
    (SDL_ReadU16LE (memHandleR c9mem)).2.1 =
      leDecode ((c9mem.buf.drop c9mem.here).take
          (if 2 > c9mem.stop - c9mem.here then c9mem.stop - c9mem.here else 2) ++
        List.replicate (2 - (if 2 > c9mem.stop - c9mem.here then c9mem.stop - c9mem.here else 2)) 0) :=
  (C9_short_read_padded c9mem (by decide)).1

/- Helper: SDL_ReadIO on a pipe-backed stream, evaluated symbolically: the
count is the request clamped to the remaining bytes, the remaining bytes
shrink accordingly, and the status is EOF exactly at end of data (fd_read
returns 0 without setting an error at end-of-file). -/
theorem readIo_pipe (rem : List Nat) (n : Nat) (hn : n ≠ 0) :
    SDL_ReadIo (pipeHandle rem) n =
      (min n rem.length, rem.take (min n rem.length),
       { iface := fd_iface, userdata := .fdPipe (rem.drop (min n rem.length)),
         status := if rem.length = 0 then SDL_IOStatus.EOF else SDL_IOStatus.READY,
         props := defaultProps }, false) := by
  by_cases h0 : rem.length = 0
  · have hnil : rem = [] := List.length_eq_zero.mp h0
    subst hnil
    simp [SDL_ReadIo, pipeHandle, fd_iface, backendRead, hn]
  · have hk : ¬ (min n rem.length = 0) := by omega
    simp [SDL_ReadIo, pipeHandle, fd_iface, backendRead, hn, h0, hk]

/- Helper: projections of readIo_pipe — the returned byte count. -/
theorem readIo_pipe_fst (rem : List Nat) (n : Nat) (hn : n ≠ 0) :
    (SDL_ReadIo (pipeHandle rem) n).1 = min n rem.length := by
  rw [readIo_pipe rem n hn]

/- Helper: projections of readIo_pipe — the returned bytes. -/
theorem readIo_pipe_bytes (rem : List Nat) (n : Nat) (hn : n ≠ 0) :
    (SDL_ReadIo (pipeHandle rem) n).2.1 = rem.take (min n rem.length) := by
  rw [readIo_pipe rem n hn]

/- Helper: projections of readIo_pipe — the stream after the call. -/
theorem readIo_pipe_handle (rem : List Nat) (n : Nat) (hn : n ≠ 0) :
    (SDL_ReadIo (pipeHandle rem) n).2.2.1 =
      { iface := fd_iface, userdata := .fdPipe (rem.drop (min n rem.length)),
        status := if rem.length = 0 then SDL_IOStatus.EOF else SDL_IOStatus.READY,
        props := defaultProps } := by
  rw [readIo_pipe rem n hn]

/- Helper: one unfolding of loadLoop in the chunk-growing branch (capacity
exhausted, SIZE_MAX check passes). -/
theorem loadLoop_grow (f : Nat) (src : SDL_IOStream) (data : List Nat) (size : Int)
    (total : Nat) (h : (total : Int) + 1024 > size)
    (h2 : (total : Int) + 1024 < SIZE_MAX - 1) :
    loadLoop (f + 1) src data size total true =
      (if 0 < (SDL_ReadIo src (((total : Int) + 1024) - (total : Int)).toNat).1 then
         loadLoop f (SDL_ReadIo src (((total : Int) + 1024) - (total : Int)).toNat).2.2.1
           (overlay
             (data.take ((((total : Int) + 1024).toNat) + 1) ++
               List.replicate (((((total : Int) + 1024).toNat) + 1) - data.length) 0)
             total (SDL_ReadIo src (((total : Int) + 1024) - (total : Int)).toNat).2.1)
           ((total : Int) + 1024)
           (total + (SDL_ReadIo src (((total : Int) + 1024) - (total : Int)).toNat).1) true
       else if SDL_GetIOStatus
           (SDL_ReadIo src (((total : Int) + 1024) - (total : Int)).toNat).2.2.1 =
           SDL_IOStatus.NOT_READY then
         loadLoop f (SDL_ReadIo src (((total : Int) + 1024) - (total : Int)).toNat).2.2.1
           (overlay
             (data.take ((((total : Int) + 1024).toNat) + 1) ++
               List.replicate (((((total : Int) + 1024).toNat) + 1) - data.length) 0)
             total (SDL_ReadIo src (((total : Int) + 1024) - (total : Int)).toNat).2.1)
           ((total : Int) + 1024) total true
       else
         some (some (overlay
           (overlay
             (data.take ((((total : Int) + 1024).toNat) + 1) ++
               List.replicate (((((total : Int) + 1024).toNat) + 1) - data.length) 0)
             total (SDL_ReadIo src (((total : Int) + 1024) - (total : Int)).toNat).2.1)
           total [0]), total)) := by
  have hn2 : ¬ ((total : Int) + 1024 ≥ SIZE_MAX - 1) := by omega
  simp [loadLoop, h, hn2]

/- Helper: one unfolding of loadLoop when the running total still fits the
current capacity. -/
theorem loadLoop_nogrow (f : Nat) (src : SDL_IOStream) (data : List Nat) (size : Int)
    (total : Nat) (h : ¬ ((total : Int) + 1024 > size)) :
    loadLoop (f + 1) src data size total true =
      (if 0 < (SDL_ReadIo src (size - (total : Int)).toNat).1 then
         loadLoop f (SDL_ReadIo src (size - (total : Int)).toNat).2.2.1
           (overlay data total (SDL_ReadIo src (size - (total : Int)).toNat).2.1) size
           (total + (SDL_ReadIo src (size - (total : Int)).toNat).1) true
       else if SDL_GetIOStatus (SDL_ReadIo src (size - (total : Int)).toNat).2.2.1 =
           SDL_IOStatus.NOT_READY then
         loadLoop f (SDL_ReadIo src (size - (total : Int)).toNat).2.2.1
           (overlay data total (SDL_ReadIo src (size - (total : Int)).toNat).2.1) size
           total true
       else
         some (some (overlay
           (overlay data total (SDL_ReadIo src (size - (total : Int)).toNat).2.1)
           total [0]), total)) := by
  simp [loadLoop, h]

/- Helper: the read-then-branch body of one loadLoop iteration on a
pipe-backed stream, assuming the invariants and the induction hypothesis for
the remaining fuel.  Yields the final buffer/length specification. -/
theorem loadLoop_pipe_step (C : List Nat) (f total : Nat) (data2 : List Nat) (size2 : Int)
    (ih : ∀ (total2 : Nat) (d : List Nat) (s : Int), total2 ≤ C.length →
            C.length - total2 + 1 ≤ f → (1024 : Int) ≤ s → s ≤ (C.length : Int) + 1024 →
            (total2 : Int) ≤ s → d.length = s.toNat + 1 → d.take total2 = C.take total2 →
            ∃ dOut, loadLoop f (pipeHandle (C.drop total2)) d s total2 true =
              some (some dOut, C.length) ∧ dOut.take C.length = C ∧
              dOut[C.length]? = some 0)
    (hle : total ≤ C.length)
    (hf : C.length - total + 1 ≤ f + 1)
    (hlo : (1024 : Int) ≤ size2) (hhi : size2 ≤ (C.length : Int) + 1024)
    (hreq : (1024 : Int) ≤ size2 - (total : Int))
    (hlen2 : data2.length = size2.toNat + 1)
    (htake2 : data2.take total = C.take total) :
    ∃ dOut,
      (if 0 < (SDL_ReadIo (pipeHandle (C.drop total)) (size2 - (total : Int)).toNat).1 then
         loadLoop f
           (SDL_ReadIo (pipeHandle (C.drop total)) (size2 - (total : Int)).toNat).2.2.1
           (overlay data2 total
             (SDL_ReadIo (pipeHandle (C.drop total)) (size2 - (total : Int)).toNat).2.1)
           size2
           (total + (SDL_ReadIo (pipeHandle (C.drop total)) (size2 - (total : Int)).toNat).1)
           true
       else if SDL_GetIOStatus
           (SDL_ReadIo (pipeHandle (C.drop total)) (size2 - (total : Int)).toNat).2.2.1 =
           SDL_IOStatus.NOT_READY then
         loadLoop f
           (SDL_ReadIo (pipeHandle (C.drop total)) (size2 - (total : Int)).toNat).2.2.1
           (overlay data2 total
             (SDL_ReadIo (pipeHandle (C.drop total)) (size2 - (total : Int)).toNat).2.1)
           size2 total true
       else
         some (some (overlay
           (overlay data2 total
             (SDL_ReadIo (pipeHandle (C.drop total)) (size2 - (total : Int)).toNat).2.1)
           total [0]), total)) =
        some (some dOut, C.length) ∧
      dOut.take C.length = C ∧ dOut[C.length]? = some 0 := by
  have hreqN : (size2 - (total : Int)).toNat ≠ 0 := by omega
  have hrem : (C.drop total).length = C.length - total := List.length_drop total C
  rw [readIo_pipe_fst _ _ hreqN, readIo_pipe_bytes _ _ hreqN, readIo_pipe_handle _ _ hreqN]
  by_cases htN : total = C.length
  · subst htN
    rw [List.drop_length]
    have hdle : C.length ≤ data2.length := by omega
    refine ⟨overlay data2 C.length [0], ?_, ?_, ?_⟩
    · simp [SDL_GetIOStatus, overlay_nil]
    · rw [overlay_take_self _ _ _ hdle, htake2, List.take_length]
    · exact overlay_getElem data2 [] C.length 0 hdle
  · have hlt : total < C.length := lt_of_le_of_ne hle htN
    have hkpos : 0 < min (size2 - (total : Int)).toNat (C.drop total).length := by
      rw [hrem]
      omega
    have hkreq : min (size2 - (total : Int)).toNat (C.drop total).length ≤
        (size2 - (total : Int)).toNat := min_le_left _ _
    have hkle : min (size2 - (total : Int)).toNat (C.drop total).length ≤
        C.length - total := by
      rw [hrem] at hkpos ⊢
      exact min_le_right _ _
    set k := min (size2 - (total : Int)).toNat (C.drop total).length with hk
    have hbs : ((C.drop total).take k).length = k := by
      simp [List.length_take, hrem]
      omega
    have hdle : total ≤ data2.length := by omega
    have hik : total + k ≤ data2.length := by omega
    have hlen3 : (overlay data2 total ((C.drop total).take k)).length =
        size2.toNat + 1 := by
      rw [overlay_length _ _ _ (by rw [hbs]; exact hik)]
      exact hlen2
    have htake3 : (overlay data2 total ((C.drop total).take k)).take (total + k) =
        C.take (total + k) := by
      have h9 := overlay_take_full data2 ((C.drop total).take k) total hdle
      rw [hbs] at h9
      rw [h9, htake2, ← List.take_add C total k]
    have hrem0 : ¬ ((C.drop total).length = 0) := by omega
    obtain ⟨dOut, heq, hA, hB⟩ :=
      ih (total + k) (overlay data2 total ((C.drop total).take k)) size2
        (by omega) (by omega) hlo hhi (by omega) hlen3 htake3
    refine ⟨dOut, ?_, hA, hB⟩
    rw [if_pos hkpos]
    have hhandle :
        ({ iface := fd_iface, userdata := .fdPipe ((C.drop total).drop k),
           status := if (C.drop total).length = 0 then SDL_IOStatus.EOF
             else SDL_IOStatus.READY,
           props := defaultProps } : SDL_IOStream) = pipeHandle (C.drop (total + k)) := by
      simp [pipeHandle, List.drop_drop]
      omega
    rw [hhandle]
    exact heq

/- Helper: the loadLoop invariant proof for a pipe-backed stream.  From any
reached state (total bytes consumed, buffer of length size+1 holding the
consumed prefix) with enough fuel, the loop terminates having consumed
exactly the stream's bytes, and null-terminates the buffer. -/
theorem loadLoop_pipe (C : List Nat) :
    ∀ (f total : Nat) (data : List Nat) (size : Int),
      (C.length : Int) + 1024 < SIZE_MAX - 1 →
      total ≤ C.length →
      C.length - total + 1 ≤ f →
      (1024 : Int) ≤ size →
      size ≤ (C.length : Int) + 1024 →
      (total : Int) ≤ size →
      data.length = size.toNat + 1 →
      data.take total = C.take total →
      ∃ dOut,
        loadLoop f (pipeHandle (C.drop total)) data size total true =
          some (some dOut, C.length) ∧
        dOut.take C.length = C ∧ dOut[C.length]? = some 0 := by
  intro f
  induction f with
  | zero =>
      intro total data size hC h1 h2 h3 h4 h5 h6 h7
      exact absurd h2 (by omega)
  | succ f ih =>
      intro total data size hC hle hf hlo hhi hts hlen htake
      have ih2 : ∀ (total2 : Nat) (d : List Nat) (s : Int), total2 ≤ C.length →
          C.length - total2 + 1 ≤ f → (1024 : Int) ≤ s → s ≤ (C.length : Int) + 1024 →
          (total2 : Int) ≤ s → d.length = s.toNat + 1 → d.take total2 = C.take total2 →
          ∃ dOut, loadLoop f (pipeHandle (C.drop total2)) d s total2 true =
            some (some dOut, C.length) ∧ dOut.take C.length = C ∧
            dOut[C.length]? = some 0 := by
        intro total2 d s h1 h2 h3 h4 h5 h6 h7
        exact ih total2 d s hC h1 h2 h3 h4 h5 h6 h7
      have hleZ : (total : Int) ≤ (C.length : Int) := by exact_mod_cast hle
      by_cases hgrow : (total : Int) + 1024 > size
      · have h2 : (total : Int) + 1024 < SIZE_MAX - 1 := by omega
        rw [loadLoop_grow f _ data size total hgrow h2]
        have hdlen : data.length ≤ ((total : Int) + 1024).toNat + 1 := by omega
        have hlen2 : (data.take (((total : Int) + 1024).toNat + 1) ++
            List.replicate ((((total : Int) + 1024).toNat + 1) - data.length) 0).length =
            ((total : Int) + 1024).toNat + 1 := by
          simp [List.length_take]
          omega
        have htot : total ≤ data.length := by omega
        have htake2 : (data.take (((total : Int) + 1024).toNat + 1) ++
            List.replicate ((((total : Int) + 1024).toNat + 1) - data.length) 0).take total =
            C.take total := by
          rw [List.take_append_eq_append_take, List.take_take]
          have e5 : min total (((total : Int) + 1024).toNat + 1) = total := by omega
          have e6 : (data.take (((total : Int) + 1024).toNat + 1)).length = data.length := by
            simp [List.length_take]
            omega
          rw [e5, e6]
          have e7 : total - data.length = 0 := by omega
          rw [e7]
          simp [htake]
        exact loadLoop_pipe_step C f total _ ((total : Int) + 1024) ih2 hle hf
          (by omega) (by omega) (by omega) hlen2 htake2
      · rw [loadLoop_nogrow f _ data size total hgrow]
        exact loadLoop_pipe_step C f total data size ih2 hle hf hlo hhi
          (by omega) hlen htake

/-- C8 (confirmed): for every pipe-backed stream (size query fails, so
LoadAll takes the 1024-byte chunked-growth path), SDL_LoadFile_IO returns a
buffer whose reported length is exactly the number of bytes available from
the stream, whose first length bytes are those bytes, and whose next
(allocated but uncounted) byte is zero.  The length bound keeps the
SIZE_MAX allocation guard out of play, as on any real machine. -/
theorem C8_loadfile_chunked_exact (C : List Nat)
    (hC : (C.length : Int) + 1024 < SIZE_MAX - 1) :
    (SDL_GetIOSize (pipeHandle C)).1 = -1 ∧
    ∃ dOut,
      SDL_LoadFile_Io (pipeHandle C) (C.length + 1) = some (some dOut, C.length) ∧
      dOut.take C.length = C ∧ dOut[C.length]? = some 0 := by
  constructor
  · rfl
  · obtain ⟨dOut, heq, hA, hB⟩ := loadLoop_pipe C (C.length + 1) 0
      (List.replicate 1025 0) 1024 hC (Nat.zero_le _) (by omega) (by norm_num)
      (by omega) (by norm_num) (by rw [List.length_replicate]; omega) (by simp)
    exact ⟨dOut, heq, hA, hB⟩

/-- C8 witness: the chunked load of the 3-byte pipe stream [3, 4, 5]. -/
theorem C8_loadfile_chunked_exact_witness :
    (SDL_GetIOSize (pipeHandle [3, 4, 5])).1 = -1 ∧
    ∃ dOut,
      SDL_LoadFile_Io (pipeHandle [3, 4, 5]) 4 = some (some dOut, 3) ∧
      dOut.take 3 = [3, 4, 5] ∧ dOut[3]? = some 0 :=
  C8_loadfile_chunked_exact [3, 4, 5] (by decide)
